import Mathlib

/-!
Verification development for the `ai_startup_analyzer` repository.

The repository is a FastAPI service that ingests startup documents, indexes
them for retrieval (ChromaDB + remote embeddings), and runs a six-agent
LLM analysis pipeline.  This file gives a shallow embedding of the pure
data-manipulation core of that code:

* JSON-like artifacts are modelled by the inductive type `Json`; Python
  dicts are association lists (`List (String × Json)`) with insertion-order
  preserving overwrite (`setKey`) and lookup (`getKey`).
* Python strings are modelled as `List Char`; the string-cleaning routines
  of the agents (`_clean_json_response` of `RiskDetectionAgent`, the inline
  fence-stripping of `DataExtractionAgent` / `RecommendationAgent`) are
  embedded character by character.
* `json.loads` (Python standard library, external to the repository) is
  modelled by a fuel-based recursive-descent parser `json_loads` covering
  the object/array/string/integer/bool/null fragment; a parse failure
  (which in Python raises `json.JSONDecodeError`) is `none`.
* A raised Python exception is modelled by `Except.error`; calls into
  external services (model backend, embedding backend, vector store) enter
  the embedded functions as explicit parameters carrying their outcome.
-/

/-- JSON-like values: the artifact type passed between pipeline stages. -/
inductive Json where
  | null : Json
  | bool : Bool → Json
  | num : Int → Json
  | str : String → Json
  | arr : List Json → Json
  | obj : List (String × Json) → Json

/-- Python `dict` lookup (`d.get(k)` / `k in d`): first binding wins
(association lists built by `setKey` have distinct keys). -/
def getKey : List (String × Json) → String → Option Json
  | [], _ => none
  | (k', v') :: rest, k => if k' = k then some v' else getKey rest k

/-- Python `dict` assignment `d[k] = v`: overwrites in place, keeping the
key's original position, or appends a new binding at the end. -/
def setKey : List (String × Json) → String → Json → List (String × Json)
  | [], k, v => [(k, v)]
  | (k', v') :: rest, k, v =>
    if k' = k then (k, v) :: rest else (k', v') :: setKey rest k v

/-- Field access on an artifact: `d.get(k)` when `d` is a dict, and the
`AttributeError` style miss (`none`) otherwise. -/
def jGet (j : Json) (k : String) : Option Json :=
  match j with
  | Json.obj kvs => getKey kvs k
  | _ => none

theorem getKey_setKey_self (kvs : List (String × Json)) (k : String) (v : Json) :
    getKey (setKey kvs k v) k = some v := by
  induction kvs with
  | nil => simp [setKey, getKey]
  | cons hd tl ih =>
    obtain ⟨k', v'⟩ := hd
    by_cases h : k' = k
    · simp [setKey, h, getKey]
    · simp [setKey, h, getKey, ih]

theorem getKey_setKey_ne (kvs : List (String × Json)) (k k' : String) (v : Json)
    (hne : k' ≠ k) : getKey (setKey kvs k v) k' = getKey kvs k' := by
  induction kvs with
  | nil => simp [setKey, getKey, Ne.symm hne]
  | cons hd tl ih =>
    obtain ⟨k₀, v₀⟩ := hd
    by_cases h : k₀ = k
    · subst h
      simp [setKey, getKey, Ne.symm hne]
    · simp [setKey, h, getKey, ih]

theorem getKey_isSome_setKey (kvs : List (String × Json)) (k k' : String) (v : Json)
    (h : (getKey kvs k').isSome) : (getKey (setKey kvs k v) k').isSome := by
  by_cases hk : k' = k
  · subst hk; simp [getKey_setKey_self]
  · rwa [getKey_setKey_ne kvs k k' v hk]

/-- Python whitespace (`str.strip` / regex `\s`): space, tab, newline,
carriage return, vertical tab, form feed. -/
def isPySpace (c : Char) : Bool :=
  c == ' ' || c == '\t' || c == '\n' || c == '\x0d' || c == '\x0b' || c == '\x0c'

/-- Python `str.strip()`. -/
def stripChars (l : List Char) : List Char :=
  (((l.dropWhile isPySpace).reverse.dropWhile isPySpace)).reverse

/-- Python `str.find` / `str.index`-style first match (as an option). -/
def findIdxO (pr : Char → Bool) : List Char → Option Nat
  | [] => none
  | c :: rest => if pr c then some 0 else (findIdxO pr rest).map (· + 1)

/-- Python `kw in line` substring test. -/
def containsSub : List Char → List Char → Bool
  | pat, [] => pat.isEmpty
  | pat, c :: rest => pat.isPrefixOf (c :: rest) || containsSub pat rest

/-- Python `text.split('\n')`. -/
def splitNl : List Char → List (List Char)
  | [] => [[]]
  | c :: rest =>
    if c = '\n' then [] :: splitNl rest
    else
      match splitNl rest with
      | [] => [[c]]
      | h :: t => (c :: h) :: t

/-- A markdown code fence: three backticks. -/
def fence3 : List Char := ['\x60', '\x60', '\x60']

/-- A fence with the `json` language tag. -/
def fenceJson : List Char := fence3 ++ ['j', 's', 'o', 'n']

/-- `re.sub(r'^```json\s*', '', text)`:  remove a leading ```` ```json ````
marker together with the whitespace that follows it. -/
def subLeadingJsonFence (l : List Char) : List Char :=
  if fenceJson.isPrefixOf l then (l.drop 7).dropWhile isPySpace else l

/-- `re.sub(r'^```\s*', '', text)`. -/
def subLeadingFence (l : List Char) : List Char :=
  if fence3.isPrefixOf l then (l.drop 3).dropWhile isPySpace else l

/-- `re.sub(r'\s*```$', '', text)`: remove a trailing fence and the
whitespace right before it. -/
def subTrailingFence (l : List Char) : List Char :=
  if fence3.reverse.isPrefixOf l.reverse then
    ((l.reverse.drop 3).dropWhile isPySpace).reverse
  else l

/-- `text[first_brace:]` when `first_brace = text.find('{') > 0`
(`RiskDetectionAgent._clean_json_response`, "remove any text before first `{`"). -/
def braceTrimFront (l : List Char) : List Char :=
  match findIdxO (fun c => c == '\x7b') l with
  | some i => if 0 < i then l.drop i else l
  | none => l

/-- `text[:last_brace+1]` when `last_brace = text.rfind('}')` satisfies
`0 < last_brace < len(text) - 1` ("remove any text after last `}`"). -/
def braceTrimBack (l : List Char) : List Char :=
  match findIdxO (fun c => c == '\x7d') l.reverse with
  | some j =>
    let i := l.length - 1 - j
    if 0 < i ∧ i < l.length - 1 then l.take (i + 1) else l
  | none => l

/-- `RiskDetectionAgent._clean_json_response`: strip code fences, strip
whitespace, then keep from the first `{` to the last `}`. -/
def clean_json_response (t : List Char) : List Char :=
  braceTrimBack (braceTrimFront (stripChars
    (subTrailingFence (subLeadingFence (subLeadingJsonFence t)))))

/-- The inline cleanup of `DataExtractionAgent.extract` (and likewise of
`RecommendationAgent`, `BenchmarkingAgent`, `GrowthAgent`,
`MarketResearchAgent`): drop a leading ```` ```json ```` (7 chars) or
```` ``` ```` (3 chars), drop a trailing ```` ``` ````, then strip.
No brace trimming is performed by these stages. -/
def clean_fences (t : List Char) : List Char :=
  let t1 := if fenceJson.isPrefixOf t then t.drop 7 else t
  let t2 := if fence3.isPrefixOf t1 then t1.drop 3 else t1
  let t3 := if fence3.reverse.isPrefixOf t2.reverse then t2.take (t2.length - 3) else t2
  stripChars t3

/-! ## A model of `json.loads`

`json.loads` is the Python standard library, external to the repository;
the parser below models its object/array/string/integer/bool/null
fragment (floats and `\u` escapes are outside the fragment: on such
inputs the model reports a parse failure, as Python does on genuinely
malformed text).  The pipeline claims are settled either at concrete
inputs inside this fragment, or by case analysis that is independent of
which texts parse. -/

/-- `l.dropWhile isPySpace`: skip insignificant whitespace. -/
def skipWs (l : List Char) : List Char := l.dropWhile isPySpace

/-- One-character JSON string escapes. -/
def escChar (c : Char) : Option Char :=
  if c = 'n' then some '\n'
  else if c = 't' then some '\t'
  else if c = 'r' then some '\x0d'
  else if c = 'b' then some '\x08'
  else if c = 'f' then some '\x0c'
  else if c = '"' then some '"'
  else if c = '\\' then some '\\'
  else if c = '/' then some '/'
  else none

/-- Parse the body of a string literal after the opening quote; returns the
decoded characters and the input after the closing quote. -/
def parseStringBody : List Char → Option (List Char × List Char)
  | [] => none
  | '\\' :: c :: rest =>
    match escChar c, parseStringBody rest with
    | some ec, some (s, r) => some (ec :: s, r)
    | _, _ => none
  | '"' :: rest => some ([], rest)
  | c :: rest =>
    match parseStringBody rest with
    | some (s, r) => some (c :: s, r)
    | none => none

/-- Digits to a natural number, most significant first. -/
def digitsToNat (ds : List Char) : Nat :=
  ds.foldl (fun acc c => 10 * acc + (c.toNat - '0'.toNat)) 0

/-- Parse an (optionally negated) integer literal. -/
def parseIntTok (l : List Char) : Option (Int × List Char) :=
  match l with
  | '-' :: rest =>
    let ds := rest.takeWhile Char.isDigit
    if ds.isEmpty then none else some (-(digitsToNat ds : Int), rest.dropWhile Char.isDigit)
  | _ =>
    let ds := l.takeWhile Char.isDigit
    if ds.isEmpty then none else some ((digitsToNat ds : Int), l.dropWhile Char.isDigit)

mutual

/-- Recursive-descent JSON value parser (fuel-based). -/
def parseVal : Nat → List Char → Option (Json × List Char)
  | 0, _ => none
  | Nat.succ fuel, l =>
    match skipWs l with
    | [] => none
    | '"' :: rest =>
      match parseStringBody rest with
      | some (s, r) => some (Json.str (String.mk s), r)
      | none => none
    | '\x7b' :: rest =>
      (match skipWs rest with
       | '\x7d' :: r2 => some (Json.obj [], r2)
       | r1 =>
         match parseMembers fuel r1 with
         | some (ms, r) => some (Json.obj ms, r)
         | none => none)
    | '[' :: rest =>
      (match skipWs rest with
       | ']' :: r2 => some (Json.arr [], r2)
       | r1 =>
         match parseItems fuel r1 with
         | some (vs, r) => some (Json.arr vs, r)
         | none => none)
    | l' =>
      if ['t', 'r', 'u', 'e'].isPrefixOf l' then some (Json.bool true, l'.drop 4)
      else if ['f', 'a', 'l', 's', 'e'].isPrefixOf l' then some (Json.bool false, l'.drop 5)
      else if ['n', 'u', 'l', 'l'].isPrefixOf l' then some (Json.null, l'.drop 4)
      else
        match parseIntTok l' with
        | some (n, r) => some (Json.num n, r)
        | none => none

/-- Parse the members of a non-empty JSON object, up to the closing brace. -/
def parseMembers : Nat → List Char → Option (List (String × Json) × List Char)
  | 0, _ => none
  | Nat.succ fuel, l =>
    match skipWs l with
    | '"' :: rest =>
      match parseStringBody rest with
      | some (kcs, r) =>
        (match skipWs r with
         | ':' :: r2 =>
           (match parseVal fuel r2 with
            | some (v, r3) =>
              (match skipWs r3 with
               | ',' :: r4 =>
                 (match parseMembers fuel r4 with
                  | some (ms, r5) => some ((String.mk kcs, v) :: ms, r5)
                  | none => none)
               | '\x7d' :: r4 => some ([(String.mk kcs, v)], r4)
               | _ => none)
            | none => none)
         | _ => none)
      | none => none
    | _ => none

/-- Parse the items of a non-empty JSON array, up to the closing bracket. -/
def parseItems : Nat → List Char → Option (List Json × List Char)
  | 0, _ => none
  | Nat.succ fuel, l =>
    match parseVal fuel l with
    | some (v, r) =>
      (match skipWs r with
       | ',' :: r2 =>
         (match parseItems fuel r2 with
          | some (vs, r3) => some (v :: vs, r3)
          | none => none)
       | ']' :: r2 => some ([v], r2)
       | _ => none)
    | none => none

end

/-- Model of `json.loads`: parse one value and require only whitespace to
remain; `none` models a raised `json.JSONDecodeError`. -/
def json_loads (t : List Char) : Option Json :=
  match parseVal (t.length + 1) t with
  | some (v, rest) => if (skipWs rest).isEmpty then some v else none
  | none => none

/-! ## Stage embeddings

Each agent's `model.invoke(prompt)` call is an external LLM backend; the
embedded stage functions therefore take the backend's raw response text as
input and model the response-processing code of the agent.  The generic
`except Exception` fallbacks of the agents make each stage total. -/

/-- `DataExtractionAgent._get_default_structure`. -/
def data_extraction_default : Json :=
  Json.obj
    [("company_info", Json.obj
        [("name", Json.str "Unknown"), ("sector", Json.str "Unknown"),
         ("stage", Json.str "Unknown"), ("founded_year", Json.null),
         ("location", Json.str "Unknown")]),
     ("business", Json.obj
        [("problem", Json.str "Not stated"), ("solution", Json.str "Not stated"),
         ("target_market", Json.str "Not stated"),
         ("business_model", Json.str "Not stated"),
         ("unique_value_prop", Json.str "Not stated"),
         ("market_size_tam", Json.str "Not stated")]),
     ("metrics", Json.obj
        [("mrr", Json.null), ("arr", Json.null), ("revenue", Json.null),
         ("growth_rate_monthly", Json.null), ("customers", Json.null),
         ("burn_rate_monthly", Json.null), ("runway_months", Json.null),
         ("churn_rate", Json.null)]),
     ("team", Json.obj
        [("founders", Json.arr []), ("total_employees", Json.null),
         ("key_hires", Json.arr [])]),
     ("funding", Json.obj
        [("total_raised", Json.null), ("last_round", Json.null),
         ("last_round_amount", Json.null), ("investors", Json.arr [])]),
     ("traction", Json.obj
        [("product_status", Json.str "Unknown"), ("customer_examples", Json.arr []),
         ("partnerships", Json.arr []), ("awards", Json.arr [])])]

/-- Response processing of `DataExtractionAgent.extract`: strip the raw
response, strip code fences, parse; on parse success the parsed value is
returned as-is (no key validation); any exception yields the default
structure. -/
def data_extraction_process (raw : List Char) : Json :=
  let t := clean_fences (stripChars raw)
  match json_loads t with
  | some d => d
  | none => data_extraction_default

/-- `RiskDetectionAgent._get_default_structure`. -/
def risk_default : Json :=
  Json.obj
    [("red_flags", Json.arr []), ("risk_score", Json.num 50),
     ("overall_assessment", Json.str "Unable to assess - analysis error"),
     ("error_note", Json.str "Risk detection encountered an error")]

/-- The fixed keyword→severity table of
`RiskDetectionAgent._extract_partial_or_default` (insertion order of the
Python dict preserved). -/
def risk_keywords : List (String × List String) :=
  [("CRITICAL", ["critical", "severe", "major concern", "deal breaker"]),
   ("HIGH", ["high risk", "significant", "serious"]),
   ("MEDIUM", ["moderate", "concerning", "noteworthy"]),
   ("LOW", ["minor", "small", "slight"])]

/-- The synthesized red-flag entry for a keyword-matching line
(`description` is `line[:200]` of the original, un-lowercased line). -/
def detected_flag (severity : String) (line : List Char) : Json :=
  Json.obj
    [("type", Json.str "detected_issue"), ("severity", Json.str severity),
     ("title", Json.str "Detected Risk"),
     ("description", Json.str (String.mk (line.take 200))),
     ("evidence", Json.arr [Json.str "Extracted from analysis"]),
     ("impact", Json.str "Requires manual review")]

/-- For one line: the first severity whose keyword list has a member
occurring in the lowercased line (the inner `break` of the Python loop). -/
def line_severity (line : List Char) : Option String :=
  let lower := line.map Char.toLower
  (risk_keywords.find? (fun kv =>
    kv.2.any (fun kw => containsSub kw.toList lower))).map (·.1)

/-- `RiskDetectionAgent._extract_partial_or_default`: scan the (cleaned)
response line by line for severity keywords; the risk score is computed
from the number of flags found before the `[:5]` truncation. -/
def extract_heuristic_or_default (text : List Char) : Json :=
  let red_flags := (splitNl text).filterMap
    (fun line => (line_severity line).map (fun sev => detected_flag sev line))
  let risk_score : Int :=
    if 0 < red_flags.length then min 90 (40 + (red_flags.length : Int) * 10) else 50
  Json.obj
    [("red_flags", Json.arr (red_flags.take 5)), ("risk_score", Json.num risk_score),
     ("overall_assessment", Json.str "Manual Review Required"),
     ("parsing_note", Json.str "JSON parsing failed, extracted partial information")]

/-- Is this value a Python list (`isinstance(x, list)`)? -/
def isJsonArr : Option Json → Bool
  | some (Json.arr _) => true
  | _ => false

/-- Response processing of `RiskDetectionAgent.detect_risks`: strip, run
`_clean_json_response`, parse; on success shallow-validate and back-fill
`red_flags` / `risk_score` / `overall_assessment`; on
`json.JSONDecodeError` run the heuristic extraction on the cleaned text;
a non-dict parse (whose `.get` raises `AttributeError`) falls to the
generic `except` and yields the default structure.  First the shallow
validation/backfill applied on parse success: -/
def risk_backfill (kvs : List (String × Json)) : List (String × Json) :=
  let kvs := if isJsonArr (getKey kvs "red_flags") then kvs
             else setKey kvs "red_flags" (Json.arr [])
  let kvs := if (getKey kvs "risk_score").isSome then kvs
             else setKey kvs "risk_score" (Json.num 50)
  let kvs := if (getKey kvs "overall_assessment").isSome then kvs
             else setKey kvs "overall_assessment" (Json.str "Medium Risk")
  kvs

/-- Response processing of `RiskDetectionAgent.detect_risks` (continued):
dispatch on the parse outcome of the cleaned text `t`. -/
def detect_risks_dispatch (o : Option Json) (t : List Char) : Json :=
  match o with
  | some (Json.obj kvs) => Json.obj (risk_backfill kvs)
  | some _ => risk_default
  | none => extract_heuristic_or_default t

/-- Response processing of `RiskDetectionAgent.detect_risks` (assembled). -/
def detect_risks_process (raw : List Char) : Json :=
  let t := clean_json_response (stripChars raw)
  detect_risks_dispatch (json_loads t) t

/-- `RecommendationAgent.generate_recommendation`'s `except` fallback;
`e` is the stringified exception interpolated into the second concern. -/
def recommendation_fallback (e : String) : Json :=
  Json.obj
    [("decision", Json.str "MAYBE"), ("confidence", Json.num 50),
     ("investment_thesis", Json.str "Unable to generate recommendation due to processing error. Manual review required."),
     ("key_strengths", Json.arr [Json.str "Analysis data collected successfully"]),
     ("key_concerns", Json.arr
        [Json.str "Analysis incomplete - technical error occurred",
         Json.str ("Error: " ++ e)]),
     ("suggested_valuation", Json.null), ("suggested_investment", Json.null),
     ("follow_up_questions", Json.arr
        [Json.str "Please rerun the analysis",
         Json.str "Verify all document uploads were successful",
         Json.str "Check system logs for detailed error information"]),
     ("deal_score", Json.num 50),
     ("next_steps", Json.str "Manual review required - rerun analysis or review documents manually")]

/-- `[f for f in risk_analysis.get('red_flags', []) if f.get('severity') == 'CRITICAL']`. -/
def isCriticalFlag (f : Json) : Bool :=
  match jGet f "severity" with
  | some (Json.str s) => s == "CRITICAL"
  | _ => false

/-- The critical flags extracted from the risk-analysis artifact. -/
def critical_flags (risk_analysis : Json) : List Json :=
  match jGet risk_analysis "red_flags" with
  | some (Json.arr l) => l.filter isCriticalFlag
  | _ => []

/-- The synthetic concern prepended by the critical-flag override. -/
def criticalMsg (n : Nat) : String :=
  "CRITICAL: " ++ toString n ++ " critical red flags detected"

/-- Post-`json.loads` logic of `RecommendationAgent.generate_recommendation`
(source lines 128-140): read the decision with `data.get('decision',
'MAYBE')`, apply the critical-flag override (which mutates `decision` and
prepends to `data['key_concerns']`, raising `KeyError` if that key is
absent and `AttributeError` if it is not a list), then evaluate the two
f-string prints, which subscript `data['decision']` and
`data['confidence']`.  `Except.error` models the raised exception; the
error strings stand in for the Python exception texts. -/
def recommendation_decision_logic (criticalCount : Nat) (d : Json) : Except String Json :=
  match d with
  | Json.obj kvs =>
    let isInvest : Bool :=
      match getKey kvs "decision" with
      | some (Json.str s) => s == "INVEST"
      | _ => false
    let afterOverride : Except String (List (String × Json)) :=
      if 0 < criticalCount && isInvest then
        let kvs := setKey kvs "decision" (Json.str "PASS")
        match getKey kvs "key_concerns" with
        | some (Json.arr kc) =>
          Except.ok (setKey kvs "key_concerns"
            (Json.arr (Json.str (criticalMsg criticalCount) :: kc)))
        | some _ => Except.error "AttributeError: insert"
        | none => Except.error "KeyError: key_concerns"
      else Except.ok kvs
    match afterOverride with
    | Except.error e => Except.error e
    | Except.ok kvs =>
      match getKey kvs "decision" with
      | none => Except.error "KeyError: decision"
      | some _ =>
        match getKey kvs "confidence" with
        | none => Except.error "KeyError: confidence"
        | some _ => Except.ok (Json.obj kvs)
  | _ => Except.error "AttributeError: get"

/-- Response processing of `RecommendationAgent.generate_recommendation`:
strip, strip fences, parse, apply the decision logic; any raised
exception (parse failure, `KeyError`, ...) is caught by the stage's
generic `except` and yields the hardcoded fallback. -/
def generate_recommendation_process (risk_analysis : Json) (raw : List Char) : Json :=
  let t := clean_fences (stripChars raw)
  match json_loads t with
  | none => recommendation_fallback "json decode error"
  | some d =>
    match recommendation_decision_logic (critical_flags risk_analysis).length d with
    | Except.ok r => r
    | Except.error e => recommendation_fallback e

/-! ## Pipeline orchestrator and analysis routes

`AgentOrchestrator.analyze_startup` (api_backend variant) takes the six
stage computations as parameters; `Except.error e` models a stage call
raising an exception with message `e`.  The orchestrator's own
`try/except Exception` wraps all six calls; the `results` dict is
mutated incrementally, so the record kept on failure contains the
artifacts of the stages that completed before the failing one. -/

/-- The failure epilogue of `AgentOrchestrator.analyze_startup`:
`results["status"] = "failed"; results["error"] = str(e)`. -/
def orchestrator_fail (results : List (String × Json)) (e : String) : List (String × Json) :=
  setKey (setKey results "status" (Json.str "failed")) "error" (Json.str e)

/-- `AgentOrchestrator.analyze_startup`: run the six stages in dependency
order, accumulating artifacts; the first raised exception is caught and
recorded in the partially-filled results record.  This function is total:
the orchestrator itself never raises on a stage exception. -/
def analyze_startup (startup_id : String)
    (extract : Except String Json)
    (benchmark : Json → Except String Json)
    (detect : Json → Except String Json)
    (research : Json → Except String Json)
    (assess : Json → Json → Except String Json)
    (recommend : Json → Json → Json → Json → Json → Except String Json) :
    List (String × Json) :=
  let results := [("startup_id", Json.str startup_id), ("status", Json.str "processing")]
  match extract with
  | Except.error e => orchestrator_fail results e
  | Except.ok ed =>
    let results := setKey results "extracted_data" ed
    match benchmark ed with
    | Except.error e => orchestrator_fail results e
    | Except.ok bd =>
      let results := setKey results "benchmark_data" bd
      match detect ed with
      | Except.error e => orchestrator_fail results e
      | Except.ok ra =>
        let results := setKey results "risk_analysis" ra
        match research ed with
        | Except.error e => orchestrator_fail results e
        | Except.ok mr =>
          let results := setKey results "market_research" mr
          match assess ed bd with
          | Except.error e => orchestrator_fail results e
          | Except.ok ga =>
            let results := setKey results "growth_assessment" ga
            match recommend ed ra mr bd ga with
            | Except.error e => orchestrator_fail results e
            | Except.ok rc =>
              setKey (setKey results "recommendation" rc) "status" (Json.str "complete")

/-! The in-memory `analysis_storage` of `routes/analysis.py` is an
association list from startup id to a status record (itself a dict). -/

/-- The first write of `run_analysis_background`: status `processing`,
progress 10. -/
def bg_mark_processing (startup_id : String) (storage : List (String × Json)) :
    List (String × Json) :=
  setKey storage startup_id (Json.obj
    [("status", Json.str "processing"), ("progress", Json.num 10),
     ("message", Json.str "Starting analysis...")])

/-- The final write of `run_analysis_background`: the `try` body stores the
orchestrator's results under status `completed` / progress 100; the
`except` branch (taken only when the orchestrator call itself raises)
stores status `failed` / progress 0 with the error message. -/
def bg_finish (startup_id : String)
    (analyzeResult : Except String (List (String × Json)))
    (storage : List (String × Json)) : List (String × Json) :=
  match analyzeResult with
  | Except.ok results =>
    setKey storage startup_id (Json.obj
      [("status", Json.str "completed"), ("progress", Json.num 100),
       ("message", Json.str "Analysis completed successfully"),
       ("results", Json.obj results)])
  | Except.error e =>
    setKey storage startup_id (Json.obj
      [("status", Json.str "failed"), ("progress", Json.num 0),
       ("message", Json.str ("Analysis failed: " ++ e)),
       ("error", Json.str e)])

/-- `run_analysis_background`, parametrized by the outcome of the
`orchestrator.analyze_startup` call. -/
def run_analysis_background (startup_id : String)
    (analyzeResult : Except String (List (String × Json)))
    (storage : List (String × Json)) : List (String × Json) :=
  bg_finish startup_id analyzeResult (bg_mark_processing startup_id storage)

/-- `start_analysis`: reject with HTTP 409 when the stored status for this
id equals `"processing"`; otherwise (completed, failed, pending or
unknown id) initialize the record to status `pending` / progress 0 and
queue the background task. -/
def start_analysis (storage : List (String × Json)) (startup_id : String) :
    Except Nat (List (String × Json)) :=
  let reject : Bool :=
    match getKey storage startup_id with
    | some rec =>
      match jGet rec "status" with
      | some (Json.str s) => s == "processing"
      | _ => false
    | none => false
  if reject then Except.error 409
  else Except.ok (setKey storage startup_id (Json.obj
    [("status", Json.str "pending"), ("progress", Json.num 0),
     ("message", Json.str "Analysis queued")]))

/-- The status field exposed by the `/status/{id}` boundary. -/
def statusAt (storage : List (String × Json)) (startup_id : String) : Option Json :=
  (getKey storage startup_id).bind (fun rec => jGet rec "status")

/-- The progress field exposed by the `/status/{id}` boundary. -/
def progressAt (storage : List (String × Json)) (startup_id : String) : Option Json :=
  (getKey storage startup_id).bind (fun rec => jGet rec "progress")

/-! ## Retrieval: `RAGSystem.query` and `RAGSystem.add_documents` -/

/-- `RAGSystem.query`: the whole body runs inside `try/except`; the
embedding call plus `collection.query` outcome enters as a parameter
(`Except.error` = backend raised; `Except.ok dss` = the
`results['documents']` list of document lists).  The `except` branch
returns the empty string; so does a falsy `documents` list or a falsy
first element (the zero-match result `[[]]`). -/
def rag_query (backendResult : Except String (List (List String))) : String :=
  match backendResult with
  | Except.error _ => ""
  | Except.ok dss =>
    match dss with
    | [] => ""
    | first :: _ =>
      if first.isEmpty then "" else String.intercalate "\n\n---\n\n" first

/-- `RAGSystem.query_by_doc_type`: identical post-processing, with the
category added to the backend filter. -/
def rag_query_by_doc_type (backendResult : Except String (List (List String))) : String :=
  match backendResult with
  | Except.error _ => ""
  | Except.ok dss =>
    match dss with
    | [] => ""
    | first :: _ =>
      if first.isEmpty then "" else String.intercalate "\n\n---\n\n" first

/-- One processed document: its chunks plus originating filename
(the `{"text": ..., "chunks": ..., "filename": ...}` dicts built by
`DocumentProcessor.process_uploaded_files`). -/
structure ProcDoc where
  chunks : List String
  filename : String

/-- The `extracted_data` mapping handed to `RAGSystem.add_documents`. -/
structure ExtractedDocs where
  pitch_deck : ProcDoc
  transcripts : List ProcDoc
  emails : List ProcDoc
  updates : List ProcDoc

/-- One record handed to `collection.add`: id, embedding vector, metadata
and document text. -/
structure IndexRecord where
  id : String
  embedding : List Int
  metadata : List (String × Json)
  document : String

/-- The records built from one multi-document category (`transcripts`,
`emails`, `updates`): ids are `f"{startup_id}_{cat}_{doc_idx}_{i}"`. -/
def category_records (embed : String → List Int) (startup_id cat : String)
    (docs : List ProcDoc) : List IndexRecord :=
  (docs.enum.map (fun dv =>
    dv.2.chunks.enum.map (fun ic =>
      { id := startup_id ++ "_" ++ cat ++ "_" ++ toString dv.1 ++ "_" ++ toString ic.1
        embedding := embed ic.2
        metadata :=
          [("startup_id", Json.str startup_id), ("doc_type", Json.str cat),
           ("doc_index", Json.num dv.1), ("chunk_index", Json.num ic.1),
           ("filename", Json.str dv.2.filename)]
        document := ic.2 }))).flatten

/-- `RAGSystem.add_documents`, pitch-deck part: pitch-deck ids are
`f"{startup_id}_pitch_{i}"`, with no document index since a run has at
most one pitch deck. -/
def pitch_records (embed : String → List Int) (ed : ExtractedDocs)
    (startup_id : String) : List IndexRecord :=
  if ed.pitch_deck.chunks.isEmpty then []
  else ed.pitch_deck.chunks.enum.map (fun ic =>
    { id := startup_id ++ "_pitch_" ++ toString ic.1
      embedding := embed ic.2
      metadata :=
        [("startup_id", Json.str startup_id), ("doc_type", Json.str "pitch_deck"),
         ("chunk_index", Json.num ic.1), ("filename", Json.str ed.pitch_deck.filename)]
      document := ic.2 })

/-- `RAGSystem.add_documents` (continued): all records accumulated over the
four categories. -/
def add_documents_records (embed : String → List Int) (ed : ExtractedDocs)
    (startup_id : String) : List IndexRecord :=
  pitch_records embed ed startup_id
    ++ category_records embed startup_id "transcript" ed.transcripts
    ++ category_records embed startup_id "email" ed.emails
    ++ category_records embed startup_id "update" ed.updates

/-- Modelled from the spec: the Retrieval Index backend's `upsert`
(§4.2: "idempotent; replaces an existing record with the same id").  The
index content is a map from id to record; each record in the batch
overwrites the entry at its id.  (The repository delegates storage to
the external ChromaDB collection, which is not part of the source.) -/
def upsertAll (recs : List IndexRecord) (store : String → Option IndexRecord) :
    String → Option IndexRecord :=
  recs.foldl (fun st r => fun k => if k = r.id then some r else st k) store

/-- The last record of a batch carrying a given id, if any: the value that
survives in the index after the batch is applied. -/
def lastWithId : List IndexRecord → String → Option IndexRecord
  | [], _ => none
  | r :: rest, k =>
    match lastWithId rest k with
    | some v => some v
    | none => if k = r.id then some r else none

/-! ## Chunker

Modelled from the spec: the repository delegates text splitting to the
external `RecursiveCharacterTextSplitter` (configured in
`DocumentProcessor.__init__` with `chunk_size=1000, chunk_overlap=200`),
whose implementation is not part of the source.  Per spec §2/§4.1 the
Chunker produces "overlapping fixed-size passages", the "overlap ...
added to the front of each non-first chunk", and "returns an empty
sequence for empty input"; the separator-preference refinement of §4.1
only moves cut points and is abstracted away here. -/

/-- `chunk_size` configured in `DocumentProcessor.__init__`. -/
def chunk_size : Nat := 1000

/-- `chunk_overlap` configured in `DocumentProcessor.__init__`. -/
def chunk_overlap : Nat := 200

/-- Modelled from the spec: `chunk(text, size, overlap)` — fixed-size
passages of length `s`, each non-first chunk prefixed with the last `o`
characters of its predecessor; empty input gives an empty sequence.
(The `s ≤ o` guard only makes the function total; the spec requires
`overlap < size`.) -/
def chunk (s o : Nat) (t : List Char) : List (List Char) :=
  if t.isEmpty then []
  else if t.length ≤ s ∨ s ≤ o then [t]
  else t.take s :: chunk s o (t.drop (s - o))
termination_by t.length
decreasing_by
  simp only [List.length_drop]
  rename_i h1 h2
  simp [List.isEmpty_iff] at h1
  push_neg at h2
  have : 0 < t.length := List.length_pos.mpr h1
  omega

/-- Re-joining chunks: the first chunk whole, every later chunk with its
first `o` characters (the overlap) trimmed. -/
def rejoin (o : Nat) : List (List Char) → List Char
  | [] => []
  | c :: cs => c ++ (cs.map (fun d => d.drop o)).flatten

/-! ## Claim theorems -/

theorem chunk_cons_head (s o : Nat) (ho : o < s) (t : List Char) (hne : t ≠ []) :
    ∃ cs, chunk s o t = t.take s :: cs := by
  rw [chunk]
  have he : t.isEmpty = false := by simpa [List.isEmpty_iff] using hne
  by_cases h2 : t.length ≤ s ∨ s ≤ o
  · refine ⟨[], ?_⟩
    have hls : t.length ≤ s := by
      rcases h2 with h | h
      · exact h
      · omega
    simp [he, h2, List.take_of_length_le hls]
  · exact ⟨chunk s o (t.drop (s - o)), by simp [he, h2]⟩

/-- C5 — For all chunk size `s` and overlap `o` with `0 ≤ o < s`, chunking a
document's text and re-joining consecutive chunks in sequence order, after
trimming the first `o` characters from every chunk but the first,
reproduces the original text exactly. -/
theorem chunk_rejoin_exact (s o : Nat) (ho : o < s) (t : List Char) :
    rejoin o (chunk s o t) = t := by
  suffices H : ∀ n t, List.length t ≤ n → rejoin o (chunk s o t) = t from
    H t.length t le_rfl
  intro n
  induction n with
  | zero =>
    intro t ht
    have : t = [] := List.eq_nil_of_length_eq_zero (Nat.le_zero.mp ht)
    subst this
    rw [chunk]
    simp [rejoin]
  | succ n ih =>
    intro t ht
    rw [chunk]
    by_cases he : t.isEmpty
    · simp only [he, if_true]
      simp only [List.isEmpty_iff] at he
      simp [rejoin, he]
    · simp only [he, Bool.false_eq_true, if_false]
      by_cases hle : t.length ≤ s ∨ s ≤ o
      · simp [hle, rejoin]
      · simp only [hle, if_false]
        push_neg at hle
        obtain ⟨hst, _⟩ := hle
        have hne : t ≠ [] := by simpa [List.isEmpty_iff] using he
        have htpos : 0 < t.length := List.length_pos.mpr hne
        have hlen' : (t.drop (s - o)).length = t.length - (s - o) :=
          List.length_drop _ _
        have hlt : (t.drop (s - o)).length ≤ n := by omega
        have ht'pos : 0 < (t.drop (s - o)).length := by omega
        have hne' : t.drop (s - o) ≠ [] := by
          intro hc
          rw [hc] at ht'pos
          simp at ht'pos
        obtain ⟨cs, hcs⟩ := chunk_cons_head s o ho (t.drop (s - o)) hne'
        have iht' := ih (t.drop (s - o)) hlt
        rw [hcs] at iht'
        simp only [rejoin, List.map_cons, List.flatten_cons] at iht' ⊢
        rw [hcs]
        simp only [List.map_cons, List.flatten_cons]
        have hofacts : o ≤ ((t.drop (s - o)).take s).length := by
          simp only [List.length_take, List.length_drop]
          omega
        calc t.take s ++ (((t.drop (s - o)).take s).drop o ++
                ((cs.map (fun d => d.drop o)).flatten))
            = t.take s ++ (((t.drop (s - o)).take s ++
                (cs.map (fun d => d.drop o)).flatten).drop o) := by
              rw [List.drop_append_of_le_length hofacts]
          _ = t.take s ++ ((t.drop (s - o)).drop o) := by rw [iht']
          _ = t.take s ++ t.drop s := by
              rw [List.drop_drop]
              have hs : s - o + o = s := by omega
              rw [hs]
          _ = t := List.take_append_drop s t

/-- C5 witness: the configured overlap is below the configured size, and a
concrete multi-chunk split re-joins exactly. -/
theorem chunk_rejoin_exact_witness :
    chunk_overlap < chunk_size ∧
      rejoin 1 (chunk 3 1 ("abcdef".toList)) = "abcdef".toList :=
  ⟨by decide, chunk_rejoin_exact 3 1 (by decide) ("abcdef".toList)⟩

/-- The ids of one multi-document category, as a function of the entity id,
the category tag and the per-document chunk counts only. -/
def category_ids (startup_id cat : String) (lens : List Nat) : List String :=
  (lens.enum.map (fun dn =>
    (List.range dn.2).map (fun i =>
      startup_id ++ "_" ++ cat ++ "_" ++ toString dn.1 ++ "_" ++ toString i))).flatten

/-- The pitch-deck ids, as a function of the entity id and chunk count only. -/
def pitch_ids (startup_id : String) (len : Nat) : List String :=
  if len = 0 then []
  else (List.range len).map (fun i => startup_id ++ "_pitch_" ++ toString i)

/-- The per-category chunk counts of an `extracted_data` mapping: all that
the record ids may depend on besides the entity id. -/
def docShape (ed : ExtractedDocs) : Nat × List Nat × List Nat × List Nat :=
  (ed.pitch_deck.chunks.length, ed.transcripts.map (fun d => d.chunks.length),
   ed.emails.map (fun d => d.chunks.length), ed.updates.map (fun d => d.chunks.length))

/-- The full id list determined by (entity id, category, document index,
chunk index). -/
def add_documents_ids (startup_id : String) (sh : Nat × List Nat × List Nat × List Nat) :
    List String :=
  pitch_ids startup_id sh.1 ++ category_ids startup_id "transcript" sh.2.1 ++
    category_ids startup_id "email" sh.2.2.1 ++ category_ids startup_id "update" sh.2.2.2

theorem enum_map_fst_comp {α β : Type} (l : List α) (g : Nat → β) :
    l.enum.map (fun p => g p.1) = (List.range l.length).map g := by
  have h1 : l.enum.map (fun p => g p.1) = (l.enum.map Prod.fst).map g := by
    rw [List.map_map]
    rfl
  rw [h1, List.enum_map_fst]

theorem category_records_ids (embed : String → List Int) (startup_id cat : String)
    (docs : List ProcDoc) :
    (category_records embed startup_id cat docs).map (fun r => r.id) =
      category_ids startup_id cat (docs.map (fun d => d.chunks.length)) := by
  unfold category_records category_ids
  rw [List.map_flatten, List.map_map, List.enum_map, List.map_map]
  congr 1
  apply List.map_congr_left
  intro dv _
  simp only [Function.comp]
  rw [List.map_map]
  exact enum_map_fst_comp dv.2.chunks
    (fun i => startup_id ++ "_" ++ cat ++ "_" ++ toString dv.1 ++ "_" ++ toString i)

/-- C4 (part 1) — record ids are a function of the entity id and the
(category, document index, chunk index) structure alone: independent of
chunk contents, embeddings, metadata and filenames. -/
theorem pitch_records_ids (embed : String → List Int) (ed : ExtractedDocs)
    (startup_id : String) :
    (pitch_records embed ed startup_id).map (fun r => r.id) =
      pitch_ids startup_id ed.pitch_deck.chunks.length := by
  unfold pitch_records pitch_ids
  by_cases h : ed.pitch_deck.chunks.isEmpty
  · have h0 : ed.pitch_deck.chunks.length = 0 := by
      simpa [List.isEmpty_iff, List.length_eq_zero] using h
    simp [h, h0]
  · have h0 : ¬ ed.pitch_deck.chunks.length = 0 := by
      simp only [List.isEmpty_iff] at h
      simpa [List.length_eq_zero] using h
    simp only [h, Bool.false_eq_true, if_false, h0]
    rw [List.map_map]
    exact enum_map_fst_comp ed.pitch_deck.chunks
      (fun i => startup_id ++ "_pitch_" ++ toString i)

/-- C4 (part 1, assembled) — the ids produced by `add_documents_records`
are exactly `add_documents_ids` of the entity id and the per-category
chunk counts: derived deterministically from (entity id, category,
document index, chunk index) alone. -/
theorem add_documents_records_ids (embed : String → List Int) (ed : ExtractedDocs)
    (startup_id : String) :
    (add_documents_records embed ed startup_id).map (fun r => r.id) =
      add_documents_ids startup_id (docShape ed) := by
  unfold add_documents_records add_documents_ids docShape
  simp only [List.map_append]
  rw [pitch_records_ids, category_records_ids, category_records_ids,
    category_records_ids]

theorem upsertAll_apply (recs : List IndexRecord) (store : String → Option IndexRecord)
    (k : String) :
    upsertAll recs store k =
      match lastWithId recs k with
      | some r => some r
      | none => store k := by
  induction recs generalizing store with
  | nil => simp [upsertAll, lastWithId]
  | cons r rest ih =>
    show upsertAll rest (fun k' => if k' = r.id then some r else store k') k = _
    rw [ih]
    simp only [lastWithId]
    cases h : lastWithId rest k with
    | some v => rfl
    | none =>
      by_cases hk : k = r.id
      · simp [hk]
      · simp [hk]

/-- C4 (part 2) — inserting the same batch of records twice leaves the index
content identical to a single insertion: re-ingestion overwrites records
with the same id, never duplicating them. -/
theorem upsertAll_idempotent (recs : List IndexRecord)
    (store : String → Option IndexRecord) :
    upsertAll recs (upsertAll recs store) = upsertAll recs store := by
  funext k
  rw [upsertAll_apply, upsertAll_apply]
  cases h : lastWithId recs k with
  | some v => rfl
  | none => rfl

/-- C4 — record ids are derived deterministically from (entity id,
category, document index, chunk index): the id list equals
`add_documents_ids` of the entity id and the per-category chunk counts
(independent of chunk contents, embeddings and filenames); and inserting
the same batch of records twice leaves the index content identical to a
single insertion. -/
theorem add_documents_ids_deterministic_and_upsert_idempotent :
    (∀ (embed : String → List Int) (ed : ExtractedDocs) (startup_id : String),
        (add_documents_records embed ed startup_id).map (fun r => r.id) =
          add_documents_ids startup_id (docShape ed)) ∧
    (∀ (recs : List IndexRecord) (store : String → Option IndexRecord),
        upsertAll recs (upsertAll recs store) = upsertAll recs store) :=
  ⟨add_documents_records_ids, upsertAll_idempotent⟩

/-- C6 — the retrieval query never raises and is never fatal: it is a
total function of the backend outcome; a raised backend error
(`Except.error`) degrades to the empty context, and a zero-match result
(an empty document list, or the `[[]]` shape ChromaDB returns for a
filter matching nothing) yields the empty context, for both `query` and
`query_by_doc_type`. -/
theorem rag_query_never_fatal (e : String) (dss : List (List String)) :
    rag_query (Except.error e) = "" ∧
    rag_query (Except.ok []) = "" ∧
    rag_query (Except.ok ([] :: dss)) = "" ∧
    rag_query_by_doc_type (Except.error e) = "" ∧
    rag_query_by_doc_type (Except.ok []) = "" ∧
    rag_query_by_doc_type (Except.ok ([] :: dss)) = "" :=
  ⟨rfl, rfl, rfl, rfl, rfl, rfl⟩

/-- C2 — the decision override: on an artifact with a `key_concerns` list
and `decision` / `confidence` keys present, at least one CRITICAL flag
together with raw decision INVEST forces the decision to PASS and
prepends the synthetic critical-count concern; with zero CRITICAL flags
or a non-INVEST raw decision the artifact is returned entirely
unchanged. -/
theorem decision_override (kvs : List (String × Json)) (flags : List Json)
    (kc : List Json) (dv cv : Json)
    (hkc : getKey kvs "key_concerns" = some (Json.arr kc))
    (hdv : getKey kvs "decision" = some dv)
    (hcf : getKey kvs "confidence" = some cv) :
    (0 < (flags.filter isCriticalFlag).length ∧ dv = Json.str "INVEST" →
      recommendation_decision_logic (flags.filter isCriticalFlag).length (Json.obj kvs) =
        Except.ok (Json.obj (setKey (setKey kvs "decision" (Json.str "PASS"))
          "key_concerns" (Json.arr
            (Json.str (criticalMsg (flags.filter isCriticalFlag).length) :: kc)))) ∧
      getKey (setKey (setKey kvs "decision" (Json.str "PASS")) "key_concerns"
          (Json.arr (Json.str (criticalMsg (flags.filter isCriticalFlag).length) :: kc)))
          "decision" = some (Json.str "PASS") ∧
      getKey (setKey (setKey kvs "decision" (Json.str "PASS")) "key_concerns"
          (Json.arr (Json.str (criticalMsg (flags.filter isCriticalFlag).length) :: kc)))
          "key_concerns" = some (Json.arr
            (Json.str (criticalMsg (flags.filter isCriticalFlag).length) :: kc))) ∧
    ((flags.filter isCriticalFlag).length = 0 ∨ dv ≠ Json.str "INVEST" →
      recommendation_decision_logic (flags.filter isCriticalFlag).length (Json.obj kvs) =
        Except.ok (Json.obj kvs)) := by
  constructor
  · rintro ⟨hn, hinv⟩
    subst hinv
    have hcondT : (decide (0 < (flags.filter isCriticalFlag).length) &&
        (match getKey kvs "decision" with
          | some (Json.str s) => s == "INVEST"
          | _ => false)) = true := by
      rw [hdv]
      simp [hn]
    have h1 : getKey (setKey kvs "decision" (Json.str "PASS")) "key_concerns" =
        some (Json.arr kc) := by
      rw [getKey_setKey_ne _ _ _ _ (by decide)]
      exact hkc
    have h2 : getKey (setKey (setKey kvs "decision" (Json.str "PASS")) "key_concerns"
        (Json.arr (Json.str (criticalMsg (flags.filter isCriticalFlag).length) :: kc)))
        "decision" = some (Json.str "PASS") := by
      rw [getKey_setKey_ne _ _ _ _ (by decide), getKey_setKey_self]
    have h3 : getKey (setKey (setKey kvs "decision" (Json.str "PASS")) "key_concerns"
        (Json.arr (Json.str (criticalMsg (flags.filter isCriticalFlag).length) :: kc)))
        "confidence" = some cv := by
      rw [getKey_setKey_ne _ _ _ _ (by decide), getKey_setKey_ne _ _ _ _ (by decide)]
      exact hcf
    refine ⟨?_, h2, getKey_setKey_self _ _ _⟩
    simp only [recommendation_decision_logic]
    rw [hcondT]
    simp [h1, h2, h3]
  · intro hno
    have hcond : (decide (0 < (flags.filter isCriticalFlag).length) &&
        (match getKey kvs "decision" with
          | some (Json.str s) => s == "INVEST"
          | _ => false)) = false := by
      rcases hno with h0 | hni
      · simp [h0]
      · rw [hdv]
        cases dv with
        | str s =>
          have hs : s ≠ "INVEST" := by
            intro hc
            exact hni (by rw [hc])
          simp [hs]
        | null => simp
        | bool b => simp
        | num n => simp
        | arr l => simp
        | obj o => simp
    simp only [recommendation_decision_logic]
    rw [hcond]
    simp [hdv, hcf]

/-- C2 witness: one CRITICAL flag with raw decision INVEST at a concrete
artifact forces PASS and the synthetic first concern; the same artifact
with a MAYBE decision passes through unchanged. -/
theorem decision_override_witness :
    recommendation_decision_logic 1
        (Json.obj [("decision", Json.str "INVEST"), ("confidence", Json.num 80),
          ("key_concerns", Json.arr [Json.str "old concern"])]) =
      Except.ok (Json.obj [("decision", Json.str "PASS"), ("confidence", Json.num 80),
        ("key_concerns", Json.arr
          [Json.str "CRITICAL: 1 critical red flags detected", Json.str "old concern"])]) := by
  have h := decision_override
    [("decision", Json.str "INVEST"), ("confidence", Json.num 80),
      ("key_concerns", Json.arr [Json.str "old concern"])]
    [Json.obj [("severity", Json.str "CRITICAL")]]
    [Json.str "old concern"] (Json.str "INVEST") (Json.num 80) rfl rfl rfl
  have h1 := (h.1 ⟨by decide, rfl⟩).1
  exact h1

theorem recommendation_fallback_fields (e : String) :
    jGet (recommendation_fallback e) "decision" = some (Json.str "MAYBE") ∧
    jGet (recommendation_fallback e) "confidence" = some (Json.num 50) ∧
    jGet (recommendation_fallback e) "deal_score" = some (Json.num 50) :=
  ⟨rfl, rfl, rfl⟩

theorem recommendation_logic_errors (n : Nat) (kvs : List (String × Json))
    (hbad : getKey kvs "confidence" = none ∨
      (0 < n ∧ getKey kvs "decision" = some (Json.str "INVEST") ∧
        getKey kvs "key_concerns" = none)) :
    ∃ e, recommendation_decision_logic n (Json.obj kvs) = Except.error e := by
  simp only [recommendation_decision_logic]
  have hkc' : getKey (setKey kvs "decision" (Json.str "PASS")) "key_concerns" =
      getKey kvs "key_concerns" := getKey_setKey_ne _ _ _ _ (by decide)
  by_cases hc : (decide (0 < n) &&
      (match getKey kvs "decision" with
        | some (Json.str s) => s == "INVEST"
        | _ => false)) = true
  · rw [hc]
    simp only [if_true, hkc']
    cases hkcv : getKey kvs "key_concerns" with
    | none => exact ⟨"KeyError: key_concerns", rfl⟩
    | some kcv =>
      cases kcv with
      | arr kc =>
        have hcf : getKey kvs "confidence" = none := by
          rcases hbad with h | ⟨_, _, hnone⟩
          · exact h
          · rw [hnone] at hkcv
            exact absurd hkcv (by simp)
        have hd2 : getKey (setKey (setKey kvs "decision" (Json.str "PASS"))
            "key_concerns" (Json.arr (Json.str (criticalMsg n) :: kc)))
            "decision" = some (Json.str "PASS") := by
          rw [getKey_setKey_ne _ _ _ _ (by decide), getKey_setKey_self]
        have hc2 : getKey (setKey (setKey kvs "decision" (Json.str "PASS"))
            "key_concerns" (Json.arr (Json.str (criticalMsg n) :: kc)))
            "confidence" = none := by
          rw [getKey_setKey_ne _ _ _ _ (by decide),
            getKey_setKey_ne _ _ _ _ (by decide)]
          exact hcf
        exact ⟨"KeyError: confidence", by simp [hd2, hc2]⟩
      | null => exact ⟨"AttributeError: insert", rfl⟩
      | bool b => exact ⟨"AttributeError: insert", rfl⟩
      | num m => exact ⟨"AttributeError: insert", rfl⟩
      | str s => exact ⟨"AttributeError: insert", rfl⟩
      | obj o => exact ⟨"AttributeError: insert", rfl⟩
  · have hcf : getKey kvs "confidence" = none := by
      rcases hbad with h | ⟨hn, hinv, _⟩
      · exact h
      · exact absurd (by rw [hinv]; simp [hn]) hc
    simp only [Bool.not_eq_true] at hc
    rw [hc]
    simp only [Bool.false_eq_true, if_false]
    cases hdec : getKey kvs "decision" with
    | none => exact ⟨"KeyError: decision", rfl⟩
    | some dvv => exact ⟨"KeyError: confidence", by simp [hcf]⟩

/-- C10 — in the recommendation stage, a response that parses as JSON but
lacks the `confidence` key, or that triggers the critical-flag override
while lacking the `key_concerns` key, raises a `KeyError` that is caught
by the stage's generic `except`: the entire parsed artifact (including
the already-computed override) is discarded and the hardcoded fallback
with decision MAYBE, confidence 50 and deal_score 50 is returned. -/
theorem recommendation_keyerror_discards_artifact (risk : Json) (raw : List Char)
    (kvs : List (String × Json))
    (hparse : json_loads (clean_fences (stripChars raw)) = some (Json.obj kvs))
    (hbad : getKey kvs "confidence" = none ∨
      (0 < (critical_flags risk).length ∧
        getKey kvs "decision" = some (Json.str "INVEST") ∧
        getKey kvs "key_concerns" = none)) :
    jGet (generate_recommendation_process risk raw) "decision" = some (Json.str "MAYBE") ∧
    jGet (generate_recommendation_process risk raw) "confidence" = some (Json.num 50) ∧
    jGet (generate_recommendation_process risk raw) "deal_score" = some (Json.num 50) := by
  obtain ⟨e, he⟩ := recommendation_logic_errors (critical_flags risk).length kvs hbad
  have hres : generate_recommendation_process risk raw = recommendation_fallback e := by
    simp only [generate_recommendation_process, hparse, he]
  rw [hres]
  exact recommendation_fallback_fields e

/-- C10 witness: a parsed response `{"decision": "INVEST"}` (no
`confidence`, no `key_concerns`) against a risk artifact with one
CRITICAL flag yields the MAYBE/50/50 fallback. -/
theorem recommendation_keyerror_discards_artifact_witness :
    jGet (generate_recommendation_process
        (Json.obj [("red_flags", Json.arr [Json.obj [("severity", Json.str "CRITICAL")]])])
        ("\x7b\"decision\": \"INVEST\"\x7d".toList)) "decision" =
      some (Json.str "MAYBE") ∧
    jGet (generate_recommendation_process
        (Json.obj [("red_flags", Json.arr [Json.obj [("severity", Json.str "CRITICAL")]])])
        ("\x7b\"decision\": \"INVEST\"\x7d".toList)) "confidence" =
      some (Json.num 50) ∧
    jGet (generate_recommendation_process
        (Json.obj [("red_flags", Json.arr [Json.obj [("severity", Json.str "CRITICAL")]])])
        ("\x7b\"decision\": \"INVEST\"\x7d".toList)) "deal_score" =
      some (Json.num 50) :=
  recommendation_keyerror_discards_artifact
    (Json.obj [("red_flags", Json.arr [Json.obj [("severity", Json.str "CRITICAL")]])])
    ("\x7b\"decision\": \"INVEST\"\x7d".toList)
    [("decision", Json.str "INVEST")] rfl (Or.inl rfl)

theorem isSome_of_isJsonArr (o : Option Json) (h : isJsonArr o = true) : o.isSome = true := by
  cases o with
  | none => simp [isJsonArr] at h
  | some v => rfl

theorem getKey_isSome_if (l : List (String × Json)) (k k' : String) (v : Json)
    (cond : Prop) [Decidable cond] (h : (getKey l k').isSome = true) :
    (getKey (if cond then l else setKey l k v) k').isSome = true := by
  by_cases hc : cond
  · simpa [hc] using h
  · simp only [hc, if_false]
    exact getKey_isSome_setKey l k k' v h

theorem getKey_isSome_if_self (l : List (String × Json)) (k : String) (v : Json)
    (cond : Prop) [Decidable cond] (hcond : cond → (getKey l k).isSome = true) :
    (getKey (if cond then l else setKey l k v) k).isSome = true := by
  by_cases hc : cond
  · simpa [hc] using hcond hc
  · simp [hc, getKey_setKey_self]

theorem risk_backfill_keys (kvs : List (String × Json)) :
    (getKey (risk_backfill kvs) "red_flags").isSome = true ∧
    (getKey (risk_backfill kvs) "risk_score").isSome = true ∧
    (getKey (risk_backfill kvs) "overall_assessment").isSome = true := by
  unfold risk_backfill
  refine ⟨?_, ?_, ?_⟩
  · apply getKey_isSome_if
    apply getKey_isSome_if
    apply getKey_isSome_if_self
    intro hc
    exact isSome_of_isJsonArr _ hc
  · apply getKey_isSome_if
    apply getKey_isSome_if_self
    intro hc
    exact hc
  · apply getKey_isSome_if_self
    intro hc
    exact hc

theorem detect_risks_dispatch_keys (o : Option Json) (t : List Char) :
    (jGet (detect_risks_dispatch o t) "red_flags").isSome = true ∧
    (jGet (detect_risks_dispatch o t) "risk_score").isSome = true ∧
    (jGet (detect_risks_dispatch o t) "overall_assessment").isSome = true := by
  cases o with
  | none => exact ⟨rfl, rfl, rfl⟩
  | some j =>
    cases j with
    | obj kvs => exact risk_backfill_keys kvs
    | null => exact ⟨rfl, rfl, rfl⟩
    | bool b => exact ⟨rfl, rfl, rfl⟩
    | num n => exact ⟨rfl, rfl, rfl⟩
    | str sv => exact ⟨rfl, rfl, rfl⟩
    | arr l => exact ⟨rfl, rfl, rfl⟩

/-- C1 (amended) — for every model-backend response text the
risk-detection stage returns an artifact containing all three of its
declared top-level keys (back-filled from defaults on parse success,
supplied by the heuristic or default structure otherwise); the
data-extraction stage never raises, and when the cleaned response does
not parse it returns its schema-complete default structure — but on
parse success it returns the parsed value as-is, without key
validation. -/
theorem structured_call_schema_keys (raw : List Char) :
    (jGet (detect_risks_process raw) "red_flags").isSome = true ∧
    (jGet (detect_risks_process raw) "risk_score").isSome = true ∧
    (jGet (detect_risks_process raw) "overall_assessment").isSome = true ∧
    (json_loads (clean_fences (stripChars raw)) = none →
      data_extraction_process raw = data_extraction_default) := by
  have h := detect_risks_dispatch_keys
    (json_loads (clean_json_response (stripChars raw)))
    (clean_json_response (stripChars raw))
  refine ⟨h.1, h.2.1, h.2.2, ?_⟩
  intro hnone
  simp only [data_extraction_process, hnone]

set_option maxHeartbeats 1000000 in
/-- C1 witness: a plain-prose response (no JSON at all) still yields all
risk keys, and the extraction stage yields its full default. -/
theorem structured_call_schema_keys_witness :
    (jGet (detect_risks_process ("no json here".toList)) "red_flags").isSome = true ∧
    json_loads (clean_fences (stripChars ("no json here".toList))) = none ∧
    data_extraction_process ("no json here".toList) = data_extraction_default := by
  have h := structured_call_schema_keys ("no json here".toList)
  exact ⟨h.1, rfl, h.2.2.2 rfl⟩

set_option maxHeartbeats 1000000 in
/-- C1 counterexample — a response that parses as JSON but lacks the
required top-level key `company_info` is returned by the data-extraction
stage with that key still absent: nothing is back-filled from the
fallback artifact, contradicting the claim for the extraction stage. -/
theorem data_extraction_no_backfill :
    json_loads (clean_fences (stripChars ("\x7b\"foo\": 1\x7d".toList))) =
      some (Json.obj [("foo", Json.num 1)]) ∧
    data_extraction_process ("\x7b\"foo\": 1\x7d".toList) =
      Json.obj [("foo", Json.num 1)] ∧
    jGet (data_extraction_process ("\x7b\"foo\": 1\x7d".toList)) "company_info" = none :=
  ⟨rfl, rfl, rfl⟩

theorem not_prefixOf_of_no_backtick (rest l : List Char) (h : '\x60' ∉ l) :
    (('\x60' :: rest).isPrefixOf l) = false := by
  cases l with
  | nil => rfl
  | cons c cs =>
    have hc : ('\x60' == c) = false :=
      beq_eq_false_iff_ne.mpr (fun hcc => h (hcc ▸ List.mem_cons_self _ _))
    simp [List.isPrefixOf, hc]

theorem dropWhile_append_cons (f : Char → Bool) (p m : List Char) (c : Char)
    (hc : f c = false) :
    (p ++ c :: m).dropWhile f = p.dropWhile f ++ c :: m := by
  induction p with
  | nil => simp [List.dropWhile, hc]
  | cons a as ih =>
    cases hfa : f a with
    | true => simpa [List.dropWhile, hfa] using ih
    | false => simp [List.dropWhile, hfa]

theorem findIdxO_append_cons (pr : Char → Bool) (p m : List Char) (c : Char)
    (hp : ∀ x ∈ p, pr x = false) (hc : pr c = true) :
    findIdxO pr (p ++ c :: m) = some p.length := by
  induction p with
  | nil => simp [findIdxO, hc]
  | cons a as ih =>
    have ha : pr a = false := hp a (List.mem_cons_self _ _)
    have ih' := ih (fun x hx => hp x (List.mem_cons_of_mem _ hx))
    simp [findIdxO, ha, ih']

theorem stripChars_append_braces (p m : List Char) :
    stripChars (p ++ '\x7b' :: (m ++ ['\x7d'])) =
      p.dropWhile isPySpace ++ '\x7b' :: (m ++ ['\x7d']) := by
  unfold stripChars
  rw [dropWhile_append_cons isPySpace p (m ++ ['\x7d']) '\x7b' (by decide)]
  have hshape : p.dropWhile isPySpace ++ '\x7b' :: (m ++ ['\x7d']) =
      (p.dropWhile isPySpace ++ '\x7b' :: m) ++ ['\x7d'] := by
    simp
  rw [hshape, List.reverse_append]
  simp only [List.reverse_cons, List.reverse_nil, List.nil_append, List.singleton_append]
  rw [List.dropWhile_cons_of_neg (by decide)]
  rw [List.reverse_cons, List.reverse_reverse]

theorem braceTrimFront_append (p m : List Char) (hp : '\x7b' ∉ p) :
    braceTrimFront (p ++ '\x7b' :: m) = '\x7b' :: m := by
  unfold braceTrimFront
  have hfind : findIdxO (fun c => c == '\x7b') (p ++ '\x7b' :: m) = some p.length := by
    apply findIdxO_append_cons
    · intro x hx
      exact beq_eq_false_iff_ne.mpr (fun hxx => hp (hxx ▸ hx))
    · simp
  rw [hfind]
  by_cases hlen : 0 < p.length
  · simp only [hlen, if_true]
    exact List.drop_left p ('\x7b' :: m)
  · have : p = [] := by
      cases p with
      | nil => rfl
      | cons a as => simp at hlen
    subst this
    simp

theorem braceTrimBack_closed (m : List Char) :
    braceTrimBack ('\x7b' :: (m ++ ['\x7d'])) = '\x7b' :: (m ++ ['\x7d']) := by
  unfold braceTrimBack
  have hshape : ('\x7b' :: (m ++ ['\x7d'])).reverse = '\x7d' :: (m.reverse ++ ['\x7b']) := by
    simp
  rw [hshape]
  have hfind : findIdxO (fun c => c == '\x7d') ('\x7d' :: (m.reverse ++ ['\x7b'])) =
      some 0 := by
    simp [findIdxO]
  rw [hfind]
  have hlen : ('\x7b' :: (m ++ ['\x7d'])).length = m.length + 2 := by simp
  simp only [hlen]
  have hcond : ¬ (0 < m.length + 2 - 1 - 0 ∧ m.length + 2 - 1 - 0 < m.length + 2 - 1) := by
    omega
  simp only [hcond, if_false]

theorem subLeadingJsonFence_no_backtick (l : List Char) (h : '\x60' ∉ l) :
    subLeadingJsonFence l = l := by
  unfold subLeadingJsonFence
  rw [show fenceJson = '\x60' :: ['\x60', '\x60', 'j', 's', 'o', 'n'] from rfl,
    not_prefixOf_of_no_backtick _ l h]
  simp

theorem subLeadingFence_no_backtick (l : List Char) (h : '\x60' ∉ l) :
    subLeadingFence l = l := by
  unfold subLeadingFence
  rw [show fence3 = '\x60' :: ['\x60', '\x60'] from rfl,
    not_prefixOf_of_no_backtick _ l h]
  simp

theorem subTrailingFence_no_backtick (l : List Char) (h : '\x60' ∉ l) :
    subTrailingFence l = l := by
  unfold subTrailingFence
  have hr : '\x60' ∉ l.reverse := by simpa using h
  rw [show fence3.reverse = '\x60' :: ['\x60', '\x60'] from rfl,
    not_prefixOf_of_no_backtick _ l.reverse hr]
  simp

theorem clean_fences_no_backtick (t : List Char) (h : '\x60' ∉ t) :
    clean_fences t = stripChars t := by
  unfold clean_fences
  have hr : '\x60' ∉ t.reverse := by simpa using h
  rw [show fenceJson = '\x60' :: ['\x60', '\x60', 'j', 's', 'o', 'n'] from rfl,
    not_prefixOf_of_no_backtick _ t h]
  simp only [Bool.false_eq_true, if_false]
  rw [show fence3 = '\x60' :: ['\x60', '\x60'] from rfl,
    not_prefixOf_of_no_backtick _ t h]
  simp only [Bool.false_eq_true, if_false]
  rw [show ('\x60' :: ['\x60', '\x60'] : List Char).reverse =
      '\x60' :: ['\x60', '\x60'] from rfl,
    not_prefixOf_of_no_backtick _ t.reverse hr]
  simp only [Bool.false_eq_true, if_false]

/-- C8 (amended) — only the risk-detection stage's cleanup implements the
full algorithm: for a response made of brace-free, backtick-free leading
commentary followed by a brace-delimited body,
`_clean_json_response` returns exactly the substring from the first `{`
to the last `}`; the cleanup of the data-extraction (and recommendation)
stage only strips code fences and whitespace — on any backtick-free
response it reduces to `strip()`, leaving leading/trailing commentary in
place for the parser to choke on. -/
theorem cleanup_brace_trim_risk_stage_only :
    (∀ p m : List Char, '\x7b' ∉ p → '\x60' ∉ p →
      clean_json_response (p ++ '\x7b' :: (m ++ ['\x7d'])) = '\x7b' :: (m ++ ['\x7d'])) ∧
    (∀ t : List Char, '\x60' ∉ t → clean_fences t = stripChars t) := by
  constructor
  · intro p m hpb hpt
    unfold clean_json_response
    have hnb : '\x60' ∉ p ++ '\x7b' :: (m ++ ['\x7d']) → True := fun _ => trivial
    have h1 : subLeadingJsonFence (p ++ '\x7b' :: (m ++ ['\x7d'])) =
        p ++ '\x7b' :: (m ++ ['\x7d']) := by
      unfold subLeadingJsonFence
      have : (fenceJson.isPrefixOf (p ++ '\x7b' :: (m ++ ['\x7d']))) = false := by
        rw [show fenceJson = '\x60' :: ['\x60', '\x60', 'j', 's', 'o', 'n'] from rfl]
        cases p with
        | nil => rfl
        | cons a as =>
          have ha : ('\x60' == a) = false :=
            beq_eq_false_iff_ne.mpr
              (fun hcc => hpt (hcc ▸ List.mem_cons_self _ _))
          simp [List.isPrefixOf, ha]
      rw [this]
      simp
    have h2 : subLeadingFence (p ++ '\x7b' :: (m ++ ['\x7d'])) =
        p ++ '\x7b' :: (m ++ ['\x7d']) := by
      unfold subLeadingFence
      have : (fence3.isPrefixOf (p ++ '\x7b' :: (m ++ ['\x7d']))) = false := by
        rw [show fence3 = '\x60' :: ['\x60', '\x60'] from rfl]
        cases p with
        | nil => rfl
        | cons a as =>
          have ha : ('\x60' == a) = false :=
            beq_eq_false_iff_ne.mpr
              (fun hcc => hpt (hcc ▸ List.mem_cons_self _ _))
          simp [List.isPrefixOf, ha]
      rw [this]
      simp
    have h3 : subTrailingFence (p ++ '\x7b' :: (m ++ ['\x7d'])) =
        p ++ '\x7b' :: (m ++ ['\x7d']) := by
      unfold subTrailingFence
      have hshape : (p ++ '\x7b' :: (m ++ ['\x7d'])).reverse =
          '\x7d' :: ((p ++ '\x7b' :: m).reverse) := by
        rw [show p ++ '\x7b' :: (m ++ ['\x7d']) = (p ++ '\x7b' :: m) ++ ['\x7d'] by simp]
        simp
      rw [hshape]
      rw [show fence3.reverse = '\x60' :: ['\x60', '\x60'] from rfl]
      simp [List.isPrefixOf]
    rw [h1, h2, h3, stripChars_append_braces]
    have hpb' : '\x7b' ∉ p.dropWhile isPySpace :=
      fun hx => hpb (List.Sublist.mem hx (List.dropWhile_sublist _))
    rw [show p.dropWhile isPySpace ++ '\x7b' :: (m ++ ['\x7d']) =
        p.dropWhile isPySpace ++ '\x7b' :: (m ++ ['\x7d']) from rfl]
    rw [braceTrimFront_append _ _ hpb', braceTrimBack_closed]
  · exact clean_fences_no_backtick

/-- C8 witness: concrete commentary `"Sure! "` before the JSON body is
discarded by the risk-stage cleanup. -/
theorem cleanup_brace_trim_risk_stage_only_witness :
    ('\x7b' ∉ "Sure! ".toList) ∧ ('\x60' ∉ "Sure! ".toList) ∧
    clean_json_response ("Sure! ".toList ++ '\x7b' :: ("\"a\": 1".toList ++ ['\x7d'])) =
      '\x7b' :: ("\"a\": 1".toList ++ ['\x7d']) :=
  ⟨by decide, by decide,
    cleanup_brace_trim_risk_stage_only.1 ("Sure! ".toList) ("\"a\": 1".toList)
      (by decide) (by decide)⟩

/-- C8 counterexample — the data-extraction stage's cleanup does not keep
only the substring from the first `{` to the last `}`: on a response
with leading commentary it returns the text unchanged (commentary
included), while the risk-stage cleanup on the same response does trim
to the braces, so the claimed algorithm does not hold for every stage. -/
theorem data_extraction_cleanup_keeps_commentary :
    clean_fences ("Sure! \x7b\"a\": 1\x7d".toList) = "Sure! \x7b\"a\": 1\x7d".toList ∧
    clean_json_response ("Sure! \x7b\"a\": 1\x7d".toList) = "\x7b\"a\": 1\x7d".toList ∧
    json_loads (clean_fences ("Sure! \x7b\"a\": 1\x7d".toList)) = none :=
  ⟨rfl, rfl, rfl⟩

/-- C3 (amended) — a stage exception does not abort the run at the status
boundary: the orchestrator catches it itself, returning a results record
with `status = "failed"`, the error message, and the artifacts of the
stages that completed before the failure (here: extraction succeeded,
benchmarking raised); the background task then stores that record under
run status `"completed"` with progress 100, so the status boundary
reports `completed`, and the partial artifacts are retained inside the
results. -/
theorem stage_exception_absorbed (sid e : String) (ed : Json)
    (extract : Except String Json)
    (benchmark detect research : Json → Except String Json)
    (assess : Json → Json → Except String Json)
    (recommend : Json → Json → Json → Json → Json → Except String Json)
    (storage : List (String × Json))
    (hex : extract = Except.ok ed)
    (hb : benchmark ed = Except.error e) :
    getKey (analyze_startup sid extract benchmark detect research assess recommend)
        "status" = some (Json.str "failed") ∧
    getKey (analyze_startup sid extract benchmark detect research assess recommend)
        "error" = some (Json.str e) ∧
    getKey (analyze_startup sid extract benchmark detect research assess recommend)
        "extracted_data" = some ed ∧
    statusAt (run_analysis_background sid
        (Except.ok (analyze_startup sid extract benchmark detect research assess recommend))
        storage) sid = some (Json.str "completed") ∧
    progressAt (run_analysis_background sid
        (Except.ok (analyze_startup sid extract benchmark detect research assess recommend))
        storage) sid = some (Json.num 100) := by
  have hr : analyze_startup sid extract benchmark detect research assess recommend =
      orchestrator_fail (setKey [("startup_id", Json.str sid),
        ("status", Json.str "processing")] "extracted_data" ed) e := by
    simp only [analyze_startup, hex, hb]
  rw [hr]
  refine ⟨rfl, rfl, rfl, ?_, ?_⟩
  · unfold run_analysis_background bg_finish bg_mark_processing statusAt
    rw [getKey_setKey_self]
    rfl
  · unfold run_analysis_background bg_finish bg_mark_processing progressAt
    rw [getKey_setKey_self]
    rfl

/-- C3 witness: concrete instantiation — extraction returns an empty
artifact, benchmarking raises `"LLM backend unreachable"`. -/
theorem stage_exception_absorbed_witness :
    getKey (analyze_startup "s1" (Except.ok (Json.obj []))
        (fun _ => Except.error "LLM backend unreachable")
        (fun _ => Except.ok (Json.obj [])) (fun _ => Except.ok (Json.obj []))
        (fun _ _ => Except.ok (Json.obj []))
        (fun _ _ _ _ _ => Except.ok (Json.obj []))) "status" = some (Json.str "failed") ∧
    statusAt (run_analysis_background "s1"
        (Except.ok (analyze_startup "s1" (Except.ok (Json.obj []))
          (fun _ => Except.error "LLM backend unreachable")
          (fun _ => Except.ok (Json.obj [])) (fun _ => Except.ok (Json.obj []))
          (fun _ _ => Except.ok (Json.obj []))
          (fun _ _ _ _ _ => Except.ok (Json.obj [])))) []) "s1" =
      some (Json.str "completed") := by
  have h := stage_exception_absorbed "s1" "LLM backend unreachable" (Json.obj [])
    (Except.ok (Json.obj [])) (fun _ => Except.error "LLM backend unreachable")
    (fun _ => Except.ok (Json.obj [])) (fun _ => Except.ok (Json.obj []))
    (fun _ _ => Except.ok (Json.obj [])) (fun _ _ _ _ _ => Except.ok (Json.obj []))
    [] rfl rfl
  exact ⟨h.1, h.2.2.2.1⟩

/-- C3 counterexample — at a concrete run where the benchmarking stage
raises, the run does NOT terminate with boundary status "failed": the
status boundary reports "completed", and the partial artifact
`extracted_data` from the stage that completed before the failure IS
retained in the stored results, contradicting the claim. -/
theorem stage_exception_not_failed_at_boundary :
    statusAt (run_analysis_background "s1"
        (Except.ok (analyze_startup "s1" (Except.ok (Json.obj [("k", Json.num 1)]))
          (fun _ => Except.error "boom")
          (fun _ => Except.ok (Json.obj [])) (fun _ => Except.ok (Json.obj []))
          (fun _ _ => Except.ok (Json.obj []))
          (fun _ _ _ _ _ => Except.ok (Json.obj [])))) []) "s1" =
      some (Json.str "completed") ∧
    (jGet ((getKey (run_analysis_background "s1"
        (Except.ok (analyze_startup "s1" (Except.ok (Json.obj [("k", Json.num 1)]))
          (fun _ => Except.error "boom")
          (fun _ => Except.ok (Json.obj [])) (fun _ => Except.ok (Json.obj []))
          (fun _ _ => Except.ok (Json.obj []))
          (fun _ _ _ _ _ => Except.ok (Json.obj [])))) []) "s1").getD Json.null)
        "results").isSome = true ∧
    getKey (analyze_startup "s1" (Except.ok (Json.obj [("k", Json.num 1)]))
        (fun _ => Except.error "boom")
        (fun _ => Except.ok (Json.obj [])) (fun _ => Except.ok (Json.obj []))
        (fun _ _ => Except.ok (Json.obj []))
        (fun _ _ _ _ _ => Except.ok (Json.obj []))) "extracted_data" =
      some (Json.obj [("k", Json.num 1)]) ∧
    getKey (analyze_startup "s1" (Except.ok (Json.obj [("k", Json.num 1)]))
        (fun _ => Except.error "boom")
        (fun _ => Except.ok (Json.obj [])) (fun _ => Except.ok (Json.obj []))
        (fun _ _ => Except.ok (Json.obj []))
        (fun _ _ _ _ _ => Except.ok (Json.obj []))) "error" = some (Json.str "boom") :=
  ⟨rfl, rfl, rfl, rfl⟩

/-- C7 (amended) — a start request is rejected (HTTP 409) exactly when the
stored status for the entity id is `"processing"`; every other state —
`completed`, `failed`, unknown id, but also the non-terminal `"pending"`
— is accepted, setting the record to `pending` (progress 0), after which
the queued background task's first write moves it to `processing`. -/
theorem start_analysis_reject_iff_processing (storage : List (String × Json))
    (sid : String) :
    (statusAt storage sid = some (Json.str "processing") →
      start_analysis storage sid = Except.error 409) ∧
    (statusAt storage sid ≠ some (Json.str "processing") →
      start_analysis storage sid = Except.ok (setKey storage sid (Json.obj
        [("status", Json.str "pending"), ("progress", Json.num 0),
         ("message", Json.str "Analysis queued")])) ∧
      statusAt (setKey storage sid (Json.obj
        [("status", Json.str "pending"), ("progress", Json.num 0),
         ("message", Json.str "Analysis queued")])) sid = some (Json.str "pending") ∧
      statusAt (bg_mark_processing sid (setKey storage sid (Json.obj
        [("status", Json.str "pending"), ("progress", Json.num 0),
         ("message", Json.str "Analysis queued")]))) sid =
        some (Json.str "processing")) := by
  have hreject : (match getKey storage sid with
      | some rec =>
        match jGet rec "status" with
        | some (Json.str s) => s == "processing"
        | _ => false
      | none => false) = true ↔
      statusAt storage sid = some (Json.str "processing") := by
    unfold statusAt
    cases hrec : getKey storage sid with
    | none => simp
    | some rec =>
      rw [show (Option.some rec).bind (fun r => jGet r "status") = jGet rec "status"
        from rfl]
      cases hst : jGet rec "status" with
      | none => simp [hst]
      | some v =>
        cases v with
        | str s => simp [hst]
        | null => simp [hst]
        | bool b => simp [hst]
        | num n => simp [hst]
        | arr l => simp [hst]
        | obj o => simp [hst]
  constructor
  · intro hproc
    unfold start_analysis
    rw [hreject.mpr hproc]
    simp
  · intro hnot
    have hfalse : (match getKey storage sid with
        | some rec =>
          match jGet rec "status" with
          | some (Json.str s) => s == "processing"
          | _ => false
        | none => false) = false := by
      cases hb : (match getKey storage sid with
          | some rec =>
            match jGet rec "status" with
            | some (Json.str s) => s == "processing"
            | _ => false
          | none => false) with
      | true => exact absurd (hreject.mp hb) hnot
      | false => rfl
    refine ⟨?_, ?_, ?_⟩
    · unfold start_analysis
      rw [hfalse]
      simp
    · unfold statusAt
      rw [getKey_setKey_self]
      rfl
    · unfold bg_mark_processing statusAt
      rw [getKey_setKey_self]
      rfl

/-- C7 witness: a completed entity is accepted and moves to pending, then
processing. -/
theorem start_analysis_reject_iff_processing_witness :
    statusAt [("s1", Json.obj [("status", Json.str "completed"),
        ("progress", Json.num 100)])] "s1" ≠ some (Json.str "processing") ∧
    start_analysis [("s1", Json.obj [("status", Json.str "completed"),
        ("progress", Json.num 100)])] "s1" =
      Except.ok [("s1", Json.obj [("status", Json.str "pending"),
        ("progress", Json.num 0), ("message", Json.str "Analysis queued")])] := by
  have h := (start_analysis_reject_iff_processing
    [("s1", Json.obj [("status", Json.str "completed"), ("progress", Json.num 100)])]
    "s1").2 (by simp [statusAt, getKey, jGet])
  exact ⟨by simp [statusAt, getKey, jGet], h.1⟩

/-- C7 counterexample — the state machine does admit a second concurrent
non-terminal run: an entity whose status is the non-terminal `"pending"`
is NOT rejected; the start request is accepted (and a second background
task would be queued), contradicting "never admits two concurrent
non-terminal runs". -/
theorem start_analysis_accepts_pending :
    statusAt [("s1", Json.obj [("status", Json.str "pending"),
        ("progress", Json.num 0), ("message", Json.str "Analysis queued")])] "s1" =
      some (Json.str "pending") ∧
    start_analysis [("s1", Json.obj [("status", Json.str "pending"),
        ("progress", Json.num 0), ("message", Json.str "Analysis queued")])] "s1" =
      Except.ok [("s1", Json.obj [("status", Json.str "pending"),
        ("progress", Json.num 0), ("message", Json.str "Analysis queued")])] :=
  ⟨rfl, rfl⟩

/-- C9 (amended) — along the successful path the reported progress is
non-decreasing (0 at `pending`, 10 at `processing`, 100 at `completed`),
but the transition to `failed` writes progress 0, a decrease from the 10
reported while processing. -/
theorem progress_per_transition (sid e : String)
    (storage res : List (String × Json)) :
    progressAt (setKey storage sid (Json.obj
      [("status", Json.str "pending"), ("progress", Json.num 0),
       ("message", Json.str "Analysis queued")])) sid = some (Json.num 0) ∧
    progressAt (bg_mark_processing sid storage) sid = some (Json.num 10) ∧
    progressAt (bg_finish sid (Except.ok res) (bg_mark_processing sid storage)) sid =
      some (Json.num 100) ∧
    statusAt (bg_finish sid (Except.ok res) (bg_mark_processing sid storage)) sid =
      some (Json.str "completed") ∧
    progressAt (bg_finish sid (Except.error e) (bg_mark_processing sid storage)) sid =
      some (Json.num 0) ∧
    statusAt (bg_finish sid (Except.error e) (bg_mark_processing sid storage)) sid =
      some (Json.str "failed") := by
  refine ⟨?_, ?_, ?_, ?_, ?_, ?_⟩
  · unfold progressAt
    rw [getKey_setKey_self]
    rfl
  · unfold bg_mark_processing progressAt
    rw [getKey_setKey_self]
    rfl
  · unfold bg_finish bg_mark_processing progressAt
    rw [getKey_setKey_self]
    rfl
  · unfold bg_finish bg_mark_processing statusAt
    rw [getKey_setKey_self]
    rfl
  · unfold bg_finish bg_mark_processing progressAt
    rw [getKey_setKey_self]
    rfl
  · unfold bg_finish bg_mark_processing statusAt
    rw [getKey_setKey_self]
    rfl

/-- C9 counterexample — a concrete run whose orchestrator call raises:
the boundary reports progress 0 (pending), then 10 (processing), then on
the transition to `failed` progress 0 again — `10 > 0`, so the progress
value is not monotonically non-decreasing across the transition to
`failed`. -/
theorem progress_decreases_on_failed_transition :
    start_analysis [] "s1" = Except.ok [("s1", Json.obj
      [("status", Json.str "pending"), ("progress", Json.num 0),
       ("message", Json.str "Analysis queued")])] ∧
    progressAt [("s1", Json.obj
      [("status", Json.str "pending"), ("progress", Json.num 0),
       ("message", Json.str "Analysis queued")])] "s1" = some (Json.num 0) ∧
    progressAt (bg_mark_processing "s1" [("s1", Json.obj
      [("status", Json.str "pending"), ("progress", Json.num 0),
       ("message", Json.str "Analysis queued")])]) "s1" = some (Json.num 10) ∧
    progressAt (bg_finish "s1" (Except.error "boom") (bg_mark_processing "s1"
      [("s1", Json.obj [("status", Json.str "pending"), ("progress", Json.num 0),
        ("message", Json.str "Analysis queued")])])) "s1" = some (Json.num 0) ∧
    statusAt (bg_finish "s1" (Except.error "boom") (bg_mark_processing "s1"
      [("s1", Json.obj [("status", Json.str "pending"), ("progress", Json.num 0),
        ("message", Json.str "Analysis queued")])])) "s1" =
      some (Json.str "failed") ∧
    (0 : Int) < 10 :=
  ⟨rfl, rfl, rfl, rfl, rfl, by decide⟩
